import Mathlib

/-!
Verification of the `IfElse` node's type-negotiation state machine and its
condition-evaluation step, embedded from
`src/griptape_nodes_library/execution/if_else.py`.

The node keeps four pieces of negotiation state (`_possibility_space`,
`_locked_type`, `_connected_inputs`, `_output_connected`) plus the advertised
accepted/produced types of its three data parameters (`output_if_true`,
`output_if_false`, `output`), and mutates them through four connection
lifecycle callbacks. Python truthiness of `str | None` fields (`None` and
`""` are both falsy) is modelled explicitly by `pyTruthy`.
-/

namespace IfElseNode

/-- Python truthiness of a `str | None` value: `None` and `""` are falsy. -/
def pyTruthy : Option String → Bool
  | none => false
  | some s => !s.isEmpty

/-- An input parameter's advertised accepted types (`input_types`) and
declared `type`, the two fields `_update_parameter_types` writes on
`output_if_true` / `output_if_false`. -/
structure InputParam where
  input_types : List String
  type : String
deriving DecidableEq, Repr

/-- The output parameter's advertised `output_type` and `type`, the two
fields `_update_parameter_types` writes on `output`. -/
structure OutputParam where
  output_type : String
  type : String
deriving DecidableEq, Repr

/-- The peer parameter supplied by the host engine in a connection callback:
its `name`, accepted `input_types`, produced `output_type` (empty string
models Python `None`) and declared `type`. -/
structure PeerParam where
  name : String
  input_types : List String
  output_type : String
  type : String
deriving DecidableEq, Repr

/-- Modelled from the spec: `ParameterTypeBuiltin.ALL.value`, the universal
"produces anything" sentinel. It comes from the host framework
(`griptape_nodes.exe_types.core_types`), which is not part of this
repository; the spec calls it the universal sentinel. Its concrete spelling
is irrelevant to every claim, which only compare against the constant. -/
def ALL_value : String := "all"

/-- The full mutable state of one `IfElse` node that the connection
lifecycle callbacks read and write. -/
structure IfElseState where
  possibility_space : List String
  locked_type : Option String
  connected_inputs : Finset String
  output_connected : Bool
  output_if_true : InputParam
  output_if_false : InputParam
  output : OutputParam
deriving DecidableEq

/-- The `_type_groups` table from `IfElse.__init__`. -/
def _type_groups : List (String × List String) :=
  [("ImageArtifact", ["ImageArtifact", "ImageUrlArtifact"]),
   ("ImageUrlArtifact", ["ImageArtifact", "ImageUrlArtifact"]),
   ("AudioArtifact", ["AudioArtifact", "AudioUrlArtifact"]),
   ("AudioUrlArtifact", ["AudioArtifact", "AudioUrlArtifact"]),
   ("VideoArtifact", ["VideoArtifact", "VideoUrlArtifact"]),
   ("VideoUrlArtifact", ["VideoArtifact", "VideoUrlArtifact"])]

/-- `IfElse._get_compatible_types`: the compatibility group of a type
(the `_type_groups` entry when present, else the singleton of the type). -/
def _get_compatible_types (type_name : String) : List String :=
  match _type_groups.lookup type_name with
  | some group => group
  | none => [type_name]

/-- The node state right after `IfElse.__init__`: no connections, no lock,
no possibility space, inputs accept `["any"]`, output produces the
universal sentinel. -/
def initState : IfElseState :=
  { possibility_space := []
    locked_type := none
    connected_inputs := ∅
    output_connected := false
    output_if_true := { input_types := ["any"], type := "any" }
    output_if_false := { input_types := ["any"], type := "any" }
    output := { output_type := ALL_value, type := ALL_value } }

/-- `IfElse._update_parameter_types`: recompute the three parameters'
advertised types from `_locked_type` (Python-truthy test) and
`_possibility_space`. -/
def _update_parameter_types (s : IfElseState) : IfElseState :=
  if pyTruthy s.locked_type then
    let lt := s.locked_type.getD ""
    let compatible_types := _get_compatible_types lt
    { s with
      output_if_true := { input_types := compatible_types, type := lt }
      output_if_false := { input_types := compatible_types, type := lt }
      output := { output_type := lt, type := lt } }
  else if !s.possibility_space.isEmpty then
    { s with
      output_if_true := { input_types := s.possibility_space, type := "any" }
      output_if_false := { input_types := s.possibility_space, type := "any" }
      output := { output_type := ALL_value, type := ALL_value } }
  else
    { s with
      output_if_true := { input_types := ["any"], type := "any" }
      output_if_false := { input_types := ["any"], type := "any" }
      output := { output_type := ALL_value, type := ALL_value } }

/-- `IfElse._can_accept_input_type`. -/
def _can_accept_input_type (s : IfElseState) (input_type : String) : Bool :=
  if pyTruthy s.locked_type then
    decide (input_type ∈ _get_compatible_types (s.locked_type.getD ""))
  else if !s.possibility_space.isEmpty then
    decide (input_type ∈ s.possibility_space)
  else
    true

/-- `IfElse._set_locked_type`. -/
def _set_locked_type (s : IfElseState) (type_to_lock : String) : IfElseState :=
  _update_parameter_types { s with locked_type := some type_to_lock }

/-- `IfElse._clear_locked_type`. -/
def _clear_locked_type (s : IfElseState) : IfElseState :=
  _update_parameter_types { s with locked_type := none }

/-- `IfElse._set_possibility_space`: store the list; recompute parameter
types only when not locked (Python-truthy test). -/
def _set_possibility_space (s : IfElseState) (possible_types : List String) : IfElseState :=
  let s1 := { s with possibility_space := possible_types }
  if !pyTruthy s1.locked_type then _update_parameter_types s1 else s1

/-- `IfElse._clear_possibility_space`. -/
def _clear_possibility_space (s : IfElseState) : IfElseState :=
  let s1 := { s with possibility_space := ([] : List String) }
  if !pyTruthy s1.locked_type then _update_parameter_types s1 else s1

/-- Resolution of `source_parameter.output_type or source_parameter.type`
(Python `or` falls through on the falsy empty string). -/
def resolvedSourceType (p : PeerParam) : String :=
  if !p.output_type.isEmpty then p.output_type else p.type

/-- `IfElse.after_incoming_connection`: for a connection into
`output_if_true` / `output_if_false`, lock to the source's type when
acceptable and unlocked, and track the target as connected either way. -/
def after_incoming_connection (s : IfElseState)
    (source_parameter target_parameter : PeerParam) : IfElseState :=
  if target_parameter.name ∈ ["output_if_true", "output_if_false"] then
    let source_type := resolvedSourceType source_parameter
    if _can_accept_input_type s source_type then
      let s1 := if !pyTruthy s.locked_type then _set_locked_type s source_type else s
      { s1 with connected_inputs := insert target_parameter.name s1.connected_inputs }
    else
      { s with connected_inputs := insert target_parameter.name s.connected_inputs }
  else s

/-- `IfElse.after_outgoing_connection`: for a connection out of `output`,
store the consumer's accepted types as the possibility space and mark the
output connected. -/
def after_outgoing_connection (s : IfElseState)
    (source_name : String) (target_parameter : PeerParam) : IfElseState :=
  if source_name = "output" then
    let target_input_types :=
      if !target_parameter.input_types.isEmpty then target_parameter.input_types
      else [target_parameter.type]
    let s1 := _set_possibility_space s target_input_types
    { s1 with output_connected := true }
  else s

/-- `IfElse.after_incoming_connection_removed`: drop the target from the
connected-input set and clear the lock when no connected inputs remain. -/
def after_incoming_connection_removed (s : IfElseState)
    (target_parameter : PeerParam) : IfElseState :=
  if target_parameter.name ∈ ["output_if_true", "output_if_false"] then
    let s1 := { s with connected_inputs := s.connected_inputs.erase target_parameter.name }
    if s1.connected_inputs = ∅ then _clear_locked_type s1 else s1
  else s

/-- `IfElse.after_outgoing_connection_removed`: for a disconnection of
`output`, clear the possibility space and mark the output disconnected. -/
def after_outgoing_connection_removed (s : IfElseState)
    (source_name : String) : IfElseState :=
  if source_name = "output" then
    let s1 := _clear_possibility_space s
    { s1 with output_connected := false }
  else s

/-- One connection-lifecycle callback, as issued by the host engine. -/
inductive Event where
  | incomingAdded : PeerParam → PeerParam → Event
  | incomingRemoved : PeerParam → Event
  | outgoingAdded : String → PeerParam → Event
  | outgoingRemoved : String → Event
deriving DecidableEq, Repr

/-- Dispatch one event to the matching callback. -/
def step (s : IfElseState) (e : Event) : IfElseState :=
  match e with
  | .incomingAdded src tgt => after_incoming_connection s src tgt
  | .incomingRemoved tgt => after_incoming_connection_removed s tgt
  | .outgoingAdded srcName tgt => after_outgoing_connection s srcName tgt
  | .outgoingRemoved srcName => after_outgoing_connection_removed s srcName

/-- Run a sequence of callbacks in order. -/
def run (s : IfElseState) : List Event → IfElseState
  | [] => s
  | e :: es => run (step s e) es

/-! ### The evaluation step -/

/-- A Python value as far as `check_evaluation` discriminates it: a `str`,
a non-`bool` `int`, a `bool`, or a value of any other type (tagged by its
type name). -/
inductive PyValue where
  | str : String → PyValue
  | int : Int → PyValue
  | bool : Bool → PyValue
  | other : String → PyValue
deriving DecidableEq, Repr

/-- The exception `check_evaluation` can raise. -/
inductive PyError where
  | typeError : String → PyError
deriving DecidableEq, Repr

instance {ε α : Type} [DecidableEq ε] [DecidableEq α] : DecidableEq (Except ε α) :=
  fun a b =>
    match a, b with
    | .error x, .error y =>
      if h : x = y then .isTrue (by rw [h])
      else .isFalse (fun hc => h (Except.error.inj hc))
    | .ok x, .ok y =>
      if h : x = y then .isTrue (by rw [h])
      else .isFalse (fun hc => h (Except.ok.inj hc))
    | .error _, .ok _ => .isFalse (fun hc => Except.noConfusion hc)
    | .ok _, .error _ => .isFalse (fun hc => Except.noConfusion hc)

/-- Python `str.lower` (modelled character-wise; the condition words are
ASCII). -/
def pyLower (s : String) : String := String.mk (s.data.map Char.toLower)

/-- Python `str.strip` with no argument: drop whitespace from both ends. -/
def pyStrip (s : String) : String :=
  String.mk (((s.data.dropWhile Char.isWhitespace).reverse.dropWhile
    Char.isWhitespace).reverse)

/-- The `false_values` list from `IfElse.check_evaluation`. -/
def false_values : List String :=
  ["false", "falsey", "f", "no", "n", "negative", "off", "zero", "0.0", "0",
   "", "nope", "nah", "none", "null", "nyet", "nein", "disabled"]

/-- `IfElse.check_evaluation` on the value of the `evaluate` parameter.
A string is lowercased, stripped and compared against `false_values`; an
`int` is truthy iff nonzero (in Python a `bool` is an `int`, and
`bool(value)` returns it unchanged); any other type raises `TypeError`. -/
def check_evaluation (value : PyValue) : Except PyError Bool :=
  match value with
  | .str s => .ok (decide (pyStrip (pyLower s) ∉ false_values))
  | .int n => .ok (decide (n ≠ 0))
  | .bool b => .ok b
  | .other t => .error (.typeError ("Unsupported type for evaluate: " ++ t))

/-- Python truthiness of a stored `PyValue` (used by
`get_next_control_output` on `parameter_output_values["evaluate"]`). -/
def pyTruthyVal : PyValue → Bool
  | .str s => !s.isEmpty
  | .int n => decide (n ≠ 0)
  | .bool b => b
  | .other _ => true

/-- Write into the `parameter_output_values` dict (overwriting any previous
binding of the key). -/
def dictSet (d : List (String × PyValue)) (k : String) (v : PyValue) :
    List (String × PyValue) :=
  d.filter (fun kv => kv.1 ≠ k) ++ [(k, v)]

/-- Look a key up in the `parameter_output_values` dict. -/
def dictGet (d : List (String × PyValue)) (k : String) : Option PyValue :=
  (d.find? (fun kv => decide (kv.1 = k))).map Prod.snd

/-- The evaluation-time state of the node: its negotiation state, the
current values of `evaluate` / `output_if_true` / `output_if_false`, the
`parameter_output_values` dict and the `stop_flow` flag. -/
structure ExecState where
  neg : IfElseState
  evaluate_value : PyValue
  output_if_true_value : PyValue
  output_if_false_value : PyValue
  parameter_output_values : List (String × PyValue)
  stop_flow : Bool
deriving DecidableEq

/-- `IfElse.process`: evaluate the condition; on success record the result
under `"evaluate"` and forward the selected branch's value under
`"output"`; on failure the exception propagates and the state is
untouched (the first assignment sits after the `check_evaluation` call). -/
def process (s : ExecState) : ExecState × Option PyError :=
  match check_evaluation s.evaluate_value with
  | .error e => (s, some e)
  | .ok evaluation_result =>
    let selected_value :=
      if evaluation_result then s.output_if_true_value else s.output_if_false_value
    let d1 := dictSet s.parameter_output_values "evaluate" (PyValue.bool evaluation_result)
    let d2 := dictSet d1 "output" selected_value
    ({ s with parameter_output_values := d2 }, none)

/-- `IfElse.get_next_control_output`: with no recorded `"evaluate"` result
set `stop_flow` and return no control output; otherwise pick `"Then"` or
`"Else"` by the recorded result's truthiness. -/
def get_next_control_output (s : ExecState) : ExecState × Option String :=
  match dictGet s.parameter_output_values "evaluate" with
  | none => ({ s with stop_flow := true }, none)
  | some v => if pyTruthyVal v then (s, some "Then") else (s, some "Else")

/-! ### Helper lemmas: field effects of the state mutators -/

@[simp] theorem update_possibility_space (s : IfElseState) :
    (_update_parameter_types s).possibility_space = s.possibility_space := by
  unfold _update_parameter_types
  split
  · rfl
  · split <;> rfl

@[simp] theorem update_locked_type (s : IfElseState) :
    (_update_parameter_types s).locked_type = s.locked_type := by
  unfold _update_parameter_types
  split
  · rfl
  · split <;> rfl

@[simp] theorem update_connected_inputs (s : IfElseState) :
    (_update_parameter_types s).connected_inputs = s.connected_inputs := by
  unfold _update_parameter_types
  split
  · rfl
  · split <;> rfl

@[simp] theorem update_output_connected (s : IfElseState) :
    (_update_parameter_types s).output_connected = s.output_connected := by
  unfold _update_parameter_types
  split
  · rfl
  · split <;> rfl

@[simp] theorem set_locked_type_fields (s : IfElseState) (t : String) :
    (_set_locked_type s t).possibility_space = s.possibility_space ∧
    (_set_locked_type s t).locked_type = some t ∧
    (_set_locked_type s t).connected_inputs = s.connected_inputs ∧
    (_set_locked_type s t).output_connected = s.output_connected := by
  unfold _set_locked_type
  simp

@[simp] theorem clear_locked_type_fields (s : IfElseState) :
    (_clear_locked_type s).possibility_space = s.possibility_space ∧
    (_clear_locked_type s).locked_type = none ∧
    (_clear_locked_type s).connected_inputs = s.connected_inputs ∧
    (_clear_locked_type s).output_connected = s.output_connected := by
  unfold _clear_locked_type
  simp

@[simp] theorem set_possibility_space_fields (s : IfElseState) (l : List String) :
    (_set_possibility_space s l).possibility_space = l ∧
    (_set_possibility_space s l).locked_type = s.locked_type ∧
    (_set_possibility_space s l).connected_inputs = s.connected_inputs ∧
    (_set_possibility_space s l).output_connected = s.output_connected := by
  by_cases h : pyTruthy s.locked_type <;> simp [_set_possibility_space, h]

@[simp] theorem clear_possibility_space_fields (s : IfElseState) :
    (_clear_possibility_space s).possibility_space = [] ∧
    (_clear_possibility_space s).locked_type = s.locked_type ∧
    (_clear_possibility_space s).connected_inputs = s.connected_inputs ∧
    (_clear_possibility_space s).output_connected = s.output_connected := by
  by_cases h : pyTruthy s.locked_type <;> simp [_clear_possibility_space, h]

/-! ### Helper lemmas: the three modes of `_update_parameter_types` -/

/-- The DEFAULT-mode port advertisement of a fresh node. -/
def defaultPorts (s : IfElseState) : Prop :=
  s.output_if_true = { input_types := ["any"], type := "any" } ∧
  s.output_if_false = { input_types := ["any"], type := "any" } ∧
  s.output = { output_type := ALL_value, type := ALL_value }

instance (s : IfElseState) : Decidable (defaultPorts s) := by
  unfold defaultPorts; infer_instance

theorem update_locked_mode (s : IfElseState) (lt : String)
    (h : s.locked_type = some lt) (hne : lt ≠ "") :
    (_update_parameter_types s).output_if_true =
      { input_types := _get_compatible_types lt, type := lt } ∧
    (_update_parameter_types s).output_if_false =
      { input_types := _get_compatible_types lt, type := lt } ∧
    (_update_parameter_types s).output = { output_type := lt, type := lt } := by
  have hE : lt.isEmpty = false := by
    cases hE2 : lt.isEmpty
    · rfl
    · exact absurd ((String.isEmpty_iff lt).mp hE2) hne
  simp [_update_parameter_types, h, pyTruthy, hE]

theorem update_possibility_mode (s : IfElseState)
    (h : pyTruthy s.locked_type = false) (hp : s.possibility_space ≠ []) :
    (_update_parameter_types s).output_if_true =
      { input_types := s.possibility_space, type := "any" } ∧
    (_update_parameter_types s).output_if_false =
      { input_types := s.possibility_space, type := "any" } ∧
    (_update_parameter_types s).output = { output_type := ALL_value, type := ALL_value } := by
  have hp2 : s.possibility_space.isEmpty = false := by
    simpa [List.isEmpty_iff] using hp
  simp [_update_parameter_types, h, hp2]

theorem update_default_mode (s : IfElseState)
    (h : pyTruthy s.locked_type = false) (hp : s.possibility_space = []) :
    defaultPorts (_update_parameter_types s) := by
  simp [_update_parameter_types, h, hp, defaultPorts]

/-! ### The reachability invariant -/

/-- The invariant every callback preserves from the fresh state:
a set lock implies a connected input, the output-connected flag matches a
non-empty possibility space, connected inputs are only the two data input
names, and a fully disconnected node advertises DEFAULT-mode ports. -/
def Inv (s : IfElseState) : Prop :=
  (s.locked_type ≠ none → s.connected_inputs ≠ ∅) ∧
  (s.output_connected = true ↔ s.possibility_space ≠ []) ∧
  (∀ t ∈ s.connected_inputs, t = "output_if_true" ∨ t = "output_if_false") ∧
  (s.connected_inputs = ∅ → s.output_connected = false → defaultPorts s)

theorem inv_init : Inv initState := by
  constructor
  · simp [initState]
  constructor
  · simp [initState]
  constructor
  · simp [initState]
  · intro _ _
    simp [initState, defaultPorts]

/-! ### Helper lemmas: field effects of each callback -/

theorem after_incoming_fields (s : IfElseState) (src tgt : PeerParam)
    (hname : tgt.name ∈ ["output_if_true", "output_if_false"]) :
    (after_incoming_connection s src tgt).connected_inputs =
      insert tgt.name s.connected_inputs ∧
    (after_incoming_connection s src tgt).possibility_space = s.possibility_space ∧
    (after_incoming_connection s src tgt).output_connected = s.output_connected ∧
    ((after_incoming_connection s src tgt).locked_type = s.locked_type ∨
     (after_incoming_connection s src tgt).locked_type = some (resolvedSourceType src)) := by
  by_cases hacc : _can_accept_input_type s (resolvedSourceType src) = true
  · by_cases hlock : pyTruthy s.locked_type = true
    · simp [after_incoming_connection, hname, hacc, hlock]
    · have hlock2 : pyTruthy s.locked_type = false := Bool.eq_false_iff.mpr hlock
      simp [after_incoming_connection, hname, hacc, hlock2]
  · simp [after_incoming_connection, hname, hacc]

theorem after_incoming_other (s : IfElseState) (src tgt : PeerParam)
    (hname : tgt.name ∉ ["output_if_true", "output_if_false"]) :
    after_incoming_connection s src tgt = s := by
  simp [after_incoming_connection, hname]

theorem after_incoming_removed_fields (s : IfElseState) (tgt : PeerParam)
    (hname : tgt.name ∈ ["output_if_true", "output_if_false"]) :
    (after_incoming_connection_removed s tgt).connected_inputs =
      s.connected_inputs.erase tgt.name ∧
    (after_incoming_connection_removed s tgt).possibility_space = s.possibility_space ∧
    (after_incoming_connection_removed s tgt).output_connected = s.output_connected ∧
    (s.connected_inputs.erase tgt.name = ∅ →
      (after_incoming_connection_removed s tgt).locked_type = none) ∧
    (s.connected_inputs.erase tgt.name ≠ ∅ →
      (after_incoming_connection_removed s tgt).locked_type = s.locked_type) := by
  by_cases hemp : s.connected_inputs.erase tgt.name = ∅ <;>
    simp [after_incoming_connection_removed, hname, hemp]

theorem after_incoming_removed_other (s : IfElseState) (tgt : PeerParam)
    (hname : tgt.name ∉ ["output_if_true", "output_if_false"]) :
    after_incoming_connection_removed s tgt = s := by
  simp [after_incoming_connection_removed, hname]

/-- When the last connected input is removed, the node re-runs
`_update_parameter_types` over the unlocked state. -/
theorem after_incoming_removed_unlock (s : IfElseState) (tgt : PeerParam)
    (hname : tgt.name ∈ ["output_if_true", "output_if_false"])
    (hemp : s.connected_inputs.erase tgt.name = ∅) :
    after_incoming_connection_removed s tgt =
      _update_parameter_types
        { s with connected_inputs := s.connected_inputs.erase tgt.name,
                 locked_type := none } := by
  simp [after_incoming_connection_removed, hname, hemp, _clear_locked_type]

theorem target_types_ne_nil (tgt : PeerParam) :
    (if !tgt.input_types.isEmpty then tgt.input_types else [tgt.type]) ≠ [] := by
  cases hti : tgt.input_types with
  | nil => simp
  | cons a l => simp

theorem after_outgoing_fields (s : IfElseState) (tgt : PeerParam) :
    (after_outgoing_connection s "output" tgt).possibility_space =
      (if !tgt.input_types.isEmpty then tgt.input_types else [tgt.type]) ∧
    (after_outgoing_connection s "output" tgt).locked_type = s.locked_type ∧
    (after_outgoing_connection s "output" tgt).connected_inputs = s.connected_inputs ∧
    (after_outgoing_connection s "output" tgt).output_connected = true := by
  simp [after_outgoing_connection]

theorem after_outgoing_other (s : IfElseState) (source_name : String) (tgt : PeerParam)
    (hsrc : source_name ≠ "output") :
    after_outgoing_connection s source_name tgt = s := by
  simp [after_outgoing_connection, hsrc]

theorem after_outgoing_removed_eq (s : IfElseState) :
    after_outgoing_connection_removed s "output" =
      { _clear_possibility_space s with output_connected := false } := by
  simp [after_outgoing_connection_removed]

theorem after_outgoing_removed_fields (s : IfElseState) :
    (after_outgoing_connection_removed s "output").possibility_space = [] ∧
    (after_outgoing_connection_removed s "output").locked_type = s.locked_type ∧
    (after_outgoing_connection_removed s "output").connected_inputs = s.connected_inputs ∧
    (after_outgoing_connection_removed s "output").output_connected = false := by
  rw [after_outgoing_removed_eq]
  simp

theorem after_outgoing_removed_other (s : IfElseState) (source_name : String)
    (hsrc : source_name ≠ "output") :
    after_outgoing_connection_removed s source_name = s := by
  simp [after_outgoing_connection_removed, hsrc]

theorem clear_possibility_default (s : IfElseState)
    (h : pyTruthy s.locked_type = false) :
    defaultPorts (_clear_possibility_space s) := by
  have hred : _clear_possibility_space s =
      _update_parameter_types { s with possibility_space := ([] : List String) } := by
    simp [_clear_possibility_space, h]
  rw [hred]
  exact update_default_mode _ h rfl

/-! ### Invariant preservation -/

theorem inv_step (s : IfElseState) (e : Event) (h : Inv s) : Inv (step s e) := by
  obtain ⟨h1, h2, h3, h4⟩ := h
  cases e with
  | incomingAdded src tgt =>
    show Inv (after_incoming_connection s src tgt)
    by_cases hname : tgt.name ∈ ["output_if_true", "output_if_false"]
    · obtain ⟨hc, hp, ho, _⟩ := after_incoming_fields s src tgt hname
      refine ⟨?_, ?_, ?_, ?_⟩
      · intro _
        rw [hc]
        exact Finset.insert_ne_empty _ _
      · rw [ho, hp]; exact h2
      · intro t ht
        rw [hc] at ht
        rcases Finset.mem_insert.mp ht with rfl | ht2
        · simpa using hname
        · exact h3 t ht2
      · intro hce
        rw [hc] at hce
        exact absurd hce (Finset.insert_ne_empty _ _)
    · rw [after_incoming_other s src tgt hname]
      exact ⟨h1, h2, h3, h4⟩
  | incomingRemoved tgt =>
    show Inv (after_incoming_connection_removed s tgt)
    by_cases hname : tgt.name ∈ ["output_if_true", "output_if_false"]
    · obtain ⟨hc, hp, ho, hle, hlne⟩ := after_incoming_removed_fields s tgt hname
      by_cases hemp : s.connected_inputs.erase tgt.name = ∅
      · refine ⟨?_, ?_, ?_, ?_⟩
        · intro hl
          rw [hle hemp] at hl
          exact absurd rfl hl
        · rw [ho, hp]; exact h2
        · intro t ht
          rw [hc] at ht
          exact h3 t (Finset.mem_of_mem_erase ht)
        · intro _ hof
          rw [ho] at hof
          have hpe : s.possibility_space = [] := by
            by_contra hcon
            rw [h2.mpr hcon] at hof
            exact absurd hof (by simp)
          rw [after_incoming_removed_unlock s tgt hname hemp]
          exact update_default_mode _ rfl hpe
      · refine ⟨?_, ?_, ?_, ?_⟩
        · intro _
          rw [hc]
          exact hemp
        · rw [ho, hp]; exact h2
        · intro t ht
          rw [hc] at ht
          exact h3 t (Finset.mem_of_mem_erase ht)
        · intro hce
          rw [hc] at hce
          exact absurd hce hemp
    · rw [after_incoming_removed_other s tgt hname]
      exact ⟨h1, h2, h3, h4⟩
  | outgoingAdded source_name tgt =>
    show Inv (after_outgoing_connection s source_name tgt)
    by_cases hsrc : source_name = "output"
    · subst hsrc
      obtain ⟨hp, hl, hc, ho⟩ := after_outgoing_fields s tgt
      refine ⟨?_, ?_, ?_, ?_⟩
      · intro hlne
        rw [hc]
        exact h1 (hl ▸ hlne)
      · rw [ho, hp]
        simpa using target_types_ne_nil tgt
      · intro t ht
        rw [hc] at ht
        exact h3 t ht
      · intro _ hof
        rw [ho] at hof
        exact absurd hof (by simp)
    · rw [after_outgoing_other s source_name tgt hsrc]
      exact ⟨h1, h2, h3, h4⟩
  | outgoingRemoved source_name =>
    show Inv (after_outgoing_connection_removed s source_name)
    by_cases hsrc : source_name = "output"
    · subst hsrc
      obtain ⟨hp, hl, hc, ho⟩ := after_outgoing_removed_fields s
      refine ⟨?_, ?_, ?_, ?_⟩
      · intro hlne
        rw [hc]
        exact h1 (hl ▸ hlne)
      · rw [ho, hp]
        simp
      · intro t ht
        rw [hc] at ht
        exact h3 t ht
      · intro hce _
        rw [hc] at hce
        have hln : s.locked_type = none := by
          by_contra hcon
          exact h1 hcon hce
        have hfalse : pyTruthy s.locked_type = false := by rw [hln]; rfl
        rw [after_outgoing_removed_eq]
        have hd := clear_possibility_default s hfalse
        simpa [defaultPorts] using hd
    · rw [after_outgoing_removed_other s source_name hsrc]
      exact ⟨h1, h2, h3, h4⟩

theorem inv_run (tr : List Event) (s : IfElseState) (h : Inv s) : Inv (run s tr) := by
  induction tr generalizing s with
  | nil => exact h
  | cons e es ih => exact ih (step s e) (inv_step s e h)

theorem run_append (s : IfElseState) (l1 l2 : List Event) :
    run s (l1 ++ l2) = run (run s l1) l2 := by
  induction l1 generalizing s with
  | nil => rfl
  | cons e es ih => simpa [run] using ih (step s e)

/-! ### Compatible traces

A trace is compatible when every incoming connection into a data input
carries a non-empty source type that `_can_accept_input_type` accepts at
the moment the callback fires (the host engine is expected to enforce
this, since it only offers connections matching the advertised
`input_types`). -/

/-- One callback is in-contract for the current state. -/
def eventOk (s : IfElseState) : Event → Bool
  | .incomingAdded src tgt =>
    if tgt.name ∈ ["output_if_true", "output_if_false"] then
      !(resolvedSourceType src).isEmpty && _can_accept_input_type s (resolvedSourceType src)
    else true
  | _ => true

/-- Every callback of the trace is in-contract for the state it fires in. -/
def compatibleTrace : IfElseState → List Event → Bool
  | _, [] => true
  | s, e :: es => eventOk s e && compatibleTrace (step s e) es

theorem after_incoming_locked_cases (s : IfElseState) (src tgt : PeerParam)
    (hname : tgt.name ∈ ["output_if_true", "output_if_false"])
    (hacc : _can_accept_input_type s (resolvedSourceType src) = true) :
    (pyTruthy s.locked_type = true →
      (after_incoming_connection s src tgt).locked_type = s.locked_type) ∧
    (pyTruthy s.locked_type = false →
      (after_incoming_connection s src tgt).locked_type = some (resolvedSourceType src)) := by
  by_cases hlock : pyTruthy s.locked_type = true
  · simp [after_incoming_connection, hname, hacc, hlock]
  · have hlock2 : pyTruthy s.locked_type = false := Bool.eq_false_iff.mpr hlock
    simp [after_incoming_connection, hname, hacc, hlock2]

theorem lockedIff_step (s : IfElseState) (e : Event) (hok : eventOk s e = true)
    (h : pyTruthy s.locked_type = true ↔ s.connected_inputs ≠ ∅) :
    pyTruthy (step s e).locked_type = true ↔ (step s e).connected_inputs ≠ ∅ := by
  cases e with
  | incomingAdded src tgt =>
    show pyTruthy (after_incoming_connection s src tgt).locked_type = true ↔
      (after_incoming_connection s src tgt).connected_inputs ≠ ∅
    by_cases hname : tgt.name ∈ ["output_if_true", "output_if_false"]
    · have hok2 : !(resolvedSourceType src).isEmpty = true ∧
          _can_accept_input_type s (resolvedSourceType src) = true := by
        simpa [eventOk, hname] using hok
      obtain ⟨hc, _, _, _⟩ := after_incoming_fields s src tgt hname
      obtain ⟨hcase1, hcase2⟩ := after_incoming_locked_cases s src tgt hname hok2.2
      constructor
      · intro _
        rw [hc]
        exact Finset.insert_ne_empty _ _
      · intro _
        by_cases hlock : pyTruthy s.locked_type = true
        · rw [hcase1 hlock]
          exact hlock
        · have hlock2 : pyTruthy s.locked_type = false := Bool.eq_false_iff.mpr hlock
          rw [hcase2 hlock2]
          simpa [pyTruthy] using hok2.1
    · rw [after_incoming_other s src tgt hname]
      exact h
  | incomingRemoved tgt =>
    show pyTruthy (after_incoming_connection_removed s tgt).locked_type = true ↔
      (after_incoming_connection_removed s tgt).connected_inputs ≠ ∅
    by_cases hname : tgt.name ∈ ["output_if_true", "output_if_false"]
    · obtain ⟨hc, _, _, hle, hlne⟩ := after_incoming_removed_fields s tgt hname
      by_cases hemp : s.connected_inputs.erase tgt.name = ∅
      · rw [hle hemp, hc, hemp]
        simp [pyTruthy]
      · have hsne : s.connected_inputs ≠ ∅ := by
          intro hcon
          exact hemp (by rw [hcon]; exact Finset.erase_empty tgt.name)
        rw [hlne hemp, hc]
        constructor
        · intro _
          exact hemp
        · intro _
          exact h.mpr hsne
    · rw [after_incoming_removed_other s tgt hname]
      exact h
  | outgoingAdded source_name tgt =>
    show pyTruthy (after_outgoing_connection s source_name tgt).locked_type = true ↔
      (after_outgoing_connection s source_name tgt).connected_inputs ≠ ∅
    by_cases hsrc : source_name = "output"
    · subst hsrc
      obtain ⟨_, hl, hc, _⟩ := after_outgoing_fields s tgt
      rw [hl, hc]
      exact h
    · rw [after_outgoing_other s source_name tgt hsrc]
      exact h
  | outgoingRemoved source_name =>
    show pyTruthy (after_outgoing_connection_removed s source_name).locked_type = true ↔
      (after_outgoing_connection_removed s source_name).connected_inputs ≠ ∅
    by_cases hsrc : source_name = "output"
    · subst hsrc
      obtain ⟨_, hl, hc, _⟩ := after_outgoing_removed_fields s
      rw [hl, hc]
      exact h
    · rw [after_outgoing_removed_other s source_name hsrc]
      exact h

theorem lockedIff_run (tr : List Event) (s : IfElseState)
    (hok : compatibleTrace s tr = true)
    (h : pyTruthy s.locked_type = true ↔ s.connected_inputs ≠ ∅) :
    pyTruthy (run s tr).locked_type = true ↔ (run s tr).connected_inputs ≠ ∅ := by
  induction tr generalizing s with
  | nil => exact h
  | cons e es ih =>
    have hok2 : eventOk s e = true ∧ compatibleTrace (step s e) es = true := by
      simpa [compatibleTrace] using hok
    exact ih (step s e) hok2.2 (lockedIff_step s e hok2.1 h)

/-! ### Removal sequences -/

/-- The event is one of the two disconnection callbacks. -/
def isRemovalEvent : Event → Bool
  | .incomingRemoved _ => true
  | .outgoingRemoved _ => true
  | _ => false

/-- The target names of the incoming-removal events in a trace. -/
def removedInputNames : List Event → List String
  | [] => []
  | Event.incomingRemoved tgt :: es => tgt.name :: removedInputNames es
  | _ :: es => removedInputNames es

/-- The source names of the outgoing-removal events in a trace. -/
def removedOutputNames : List Event → List String
  | [] => []
  | Event.outgoingRemoved n :: es => n :: removedOutputNames es
  | _ :: es => removedOutputNames es

theorem removal_step_connected (s : IfElseState) (e : Event)
    (hrem : isRemovalEvent e = true) :
    (step s e).connected_inputs ⊆ s.connected_inputs := by
  cases e with
  | incomingAdded src tgt => simp [isRemovalEvent] at hrem
  | incomingRemoved tgt =>
    show (after_incoming_connection_removed s tgt).connected_inputs ⊆ s.connected_inputs
    by_cases hname : tgt.name ∈ ["output_if_true", "output_if_false"]
    · rw [(after_incoming_removed_fields s tgt hname).1]
      exact Finset.erase_subset _ _
    · rw [after_incoming_removed_other s tgt hname]
  | outgoingAdded source_name tgt => simp [isRemovalEvent] at hrem
  | outgoingRemoved source_name =>
    show (after_outgoing_connection_removed s source_name).connected_inputs ⊆ s.connected_inputs
    by_cases hsrc : source_name = "output"
    · subst hsrc
      rw [(after_outgoing_removed_fields s).2.2.1]
    · rw [after_outgoing_removed_other s source_name hsrc]

theorem removals_connected_subset (seq : List Event) (s : IfElseState)
    (hrem : ∀ e ∈ seq, isRemovalEvent e = true) :
    (run s seq).connected_inputs ⊆ s.connected_inputs := by
  induction seq generalizing s with
  | nil => exact Finset.Subset.refl _
  | cons e es ih =>
    exact (ih (step s e) (fun x hx => hrem x (List.mem_cons_of_mem e hx))).trans
      (removal_step_connected s e (hrem e (List.mem_cons_self e es)))

theorem removals_drop_input (seq : List Event) (s : IfElseState) (t : String)
    (hrem : ∀ e ∈ seq, isRemovalEvent e = true)
    (hvalid : t = "output_if_true" ∨ t = "output_if_false")
    (hmem : t ∈ removedInputNames seq) :
    t ∉ (run s seq).connected_inputs := by
  induction seq generalizing s with
  | nil => simp [removedInputNames] at hmem
  | cons e es ih =>
    have hrest : ∀ x ∈ es, isRemovalEvent x = true :=
      fun x hx => hrem x (List.mem_cons_of_mem e hx)
    cases e with
    | incomingAdded src tgt => simpa [isRemovalEvent] using hrem _ (List.mem_cons_self _ es)
    | incomingRemoved tgt =>
      by_cases heq : tgt.name = t
      · intro hcon
        have hsub := removals_connected_subset es (step s (Event.incomingRemoved tgt)) hrest
        have hstep : t ∈ (step s (Event.incomingRemoved tgt)).connected_inputs :=
          hsub hcon
        have hname : tgt.name ∈ ["output_if_true", "output_if_false"] := by
          rw [heq]
          rcases hvalid with rfl | rfl <;> simp
        have hstep2 : t ∈ (after_incoming_connection_removed s tgt).connected_inputs := hstep
        rw [(after_incoming_removed_fields s tgt hname).1, heq] at hstep2
        exact absurd hstep2 (Finset.not_mem_erase t s.connected_inputs)
      · have hmem2 : t ∈ removedInputNames es := by
          rcases List.mem_cons.mp (by simpa [removedInputNames] using hmem) with h1 | h2
          · exact absurd h1.symm heq
          · exact h2
        exact ih (step s (Event.incomingRemoved tgt)) hrest hmem2
    | outgoingAdded source_name tgt =>
      simpa [isRemovalEvent] using hrem _ (List.mem_cons_self _ es)
    | outgoingRemoved source_name =>
      have hmem2 : t ∈ removedInputNames es := by simpa [removedInputNames] using hmem
      exact ih (step s (Event.outgoingRemoved source_name)) hrest hmem2

theorem removal_step_out (s : IfElseState) (e : Event)
    (hrem : isRemovalEvent e = true) (hout : s.output_connected = false) :
    (step s e).output_connected = false := by
  cases e with
  | incomingAdded src tgt => simp [isRemovalEvent] at hrem
  | incomingRemoved tgt =>
    show (after_incoming_connection_removed s tgt).output_connected = false
    by_cases hname : tgt.name ∈ ["output_if_true", "output_if_false"]
    · rw [(after_incoming_removed_fields s tgt hname).2.2.1]
      exact hout
    · rw [after_incoming_removed_other s tgt hname]
      exact hout
  | outgoingAdded source_name tgt => simp [isRemovalEvent] at hrem
  | outgoingRemoved source_name =>
    show (after_outgoing_connection_removed s source_name).output_connected = false
    by_cases hsrc : source_name = "output"
    · subst hsrc
      exact (after_outgoing_removed_fields s).2.2.2
    · rw [after_outgoing_removed_other s source_name hsrc]
      exact hout

theorem removals_keep_out_false (seq : List Event) (s : IfElseState)
    (hrem : ∀ e ∈ seq, isRemovalEvent e = true) (hout : s.output_connected = false) :
    (run s seq).output_connected = false := by
  induction seq generalizing s with
  | nil => exact hout
  | cons e es ih =>
    exact ih (step s e) (fun x hx => hrem x (List.mem_cons_of_mem e hx))
      (removal_step_out s e (hrem e (List.mem_cons_self e es)) hout)

theorem removals_drop_out (seq : List Event) (s : IfElseState)
    (hrem : ∀ e ∈ seq, isRemovalEvent e = true)
    (hmem : "output" ∈ removedOutputNames seq) :
    (run s seq).output_connected = false := by
  induction seq generalizing s with
  | nil => simp [removedOutputNames] at hmem
  | cons e es ih =>
    have hrest : ∀ x ∈ es, isRemovalEvent x = true :=
      fun x hx => hrem x (List.mem_cons_of_mem e hx)
    cases e with
    | incomingAdded src tgt => simpa [isRemovalEvent] using hrem _ (List.mem_cons_self _ es)
    | incomingRemoved tgt =>
      have hmem2 : "output" ∈ removedOutputNames es := by
        simpa [removedOutputNames] using hmem
      exact ih (step s (Event.incomingRemoved tgt)) hrest hmem2
    | outgoingAdded source_name tgt =>
      simpa [isRemovalEvent] using hrem _ (List.mem_cons_self _ es)
    | outgoingRemoved source_name =>
      by_cases hsrc : source_name = "output"
      · subst hsrc
        exact removals_keep_out_false es _ hrest (after_outgoing_removed_fields s).2.2.2
      · have hmem2 : "output" ∈ removedOutputNames es := by
          rcases List.mem_cons.mp (by simpa [removedOutputNames] using hmem) with h1 | h2
          · exact absurd h1.symm hsrc
          · exact h2
        exact ih (step s (Event.outgoingRemoved source_name)) hrest hmem2

/-! ### Concrete fixture parameters for witness states -/

/-- A downstream consumer parameter accepting only `"string"`. -/
def consumerString : PeerParam :=
  { name := "target_in", input_types := ["string"], output_type := "", type := "string" }

/-- A downstream consumer parameter accepting `"string"` or `"int"`. -/
def consumerStringInt : PeerParam :=
  { name := "target_in2", input_types := ["string", "int"], output_type := "", type := "string" }

/-- An upstream producer parameter of output type `"string"`. -/
def stringSource : PeerParam :=
  { name := "src_out", input_types := [], output_type := "string", type := "string" }

/-- An upstream producer parameter of output type `"int"`. -/
def intSource : PeerParam :=
  { name := "src_out2", input_types := [], output_type := "int", type := "int" }

/-- The node's own `output_if_true` parameter as a connection target. -/
def inputA : PeerParam :=
  { name := "output_if_true", input_types := ["any"], output_type := "", type := "any" }

/-- The node's own `output_if_false` parameter as a connection target. -/
def inputB : PeerParam :=
  { name := "output_if_false", input_types := ["any"], output_type := "", type := "any" }

/-! ### The claims -/

/-- C1 counterexample: connect the output to a consumer accepting only
`"string"`, then (against the advertised input types, which the code
tracks anyway "to be safe") an `"int"` producer into `output_if_true`.
The connected-input set becomes non-empty while `_locked_type` stays
`None`, so "locked type non-empty iff connected inputs non-empty" fails
for this sequence of connection-lifecycle callbacks. -/
theorem C1_counterexample :
    ¬ (pyTruthy (run initState
        [Event.outgoingAdded "output" consumerString,
         Event.incomingAdded intSource inputA]).locked_type = true ↔
       (run initState
        [Event.outgoingAdded "output" consumerString,
         Event.incomingAdded intSource inputA]).connected_inputs ≠ ∅) := by
  decide

/-- C1 (amended): for every sequence of connection-lifecycle callbacks
from a fresh IfElse node in which each incoming connection into a data
input carries a non-empty source type that `_can_accept_input_type`
accepts at the moment the callback fires, the locked type is non-empty
(Python-truthy) iff the set of connected inputs is non-empty. -/
theorem C1_locked_iff_connected (tr : List Event)
    (h : compatibleTrace initState tr = true) :
    pyTruthy (run initState tr).locked_type = true ↔
      (run initState tr).connected_inputs ≠ ∅ :=
  lockedIff_run tr initState h (by simp [initState, pyTruthy])

theorem C1_witness :
    compatibleTrace initState [Event.incomingAdded stringSource inputA] = true ∧
    (pyTruthy (run initState
        [Event.incomingAdded stringSource inputA]).locked_type = true ↔
      (run initState [Event.incomingAdded stringSource inputA]).connected_inputs ≠ ∅) :=
  ⟨by decide, C1_locked_iff_connected [Event.incomingAdded stringSource inputA] (by decide)⟩

/-- C2 counterexample: lock first (string producer into `output_if_true`),
then connect the output to a multi-type consumer. `after_outgoing_connection`
stores the possibility space unconditionally, so the state has a non-empty
locked type AND a non-empty possibility space at once, refuting "at most
one of the two is non-empty". -/
theorem C2_counterexample :
    pyTruthy (run initState
      [Event.incomingAdded stringSource inputA,
       Event.outgoingAdded "output" consumerStringInt]).locked_type = true ∧
    (run initState
      [Event.incomingAdded stringSource inputA,
       Event.outgoingAdded "output" consumerStringInt]).possibility_space ≠ [] := by
  decide

/-- C2 (amended): in every state reachable by connection-lifecycle
callbacks from a fresh IfElse node, a non-empty `_possibility_space`
implies the output is connected. (The stored possibility space can
coexist with a locked type; the lock merely suppresses its use.) -/
theorem C2_possibility_requires_output (tr : List Event)
    (h : (run initState tr).possibility_space ≠ []) :
    (run initState tr).output_connected = true :=
  (inv_run tr initState inv_init).2.1.mpr h

theorem C2_witness :
    (run initState [Event.outgoingAdded "output" consumerString]).possibility_space ≠ [] ∧
    (run initState [Event.outgoingAdded "output" consumerString]).output_connected = true :=
  ⟨by decide,
   C2_possibility_requires_output [Event.outgoingAdded "output" consumerString] (by decide)⟩

/-- C3 (confirmed): after `_update_parameter_types`, a (truthy) locked
type makes both inputs accept exactly its compatibility group and the
output produce it; otherwise a non-empty possibility space makes both
inputs accept exactly that space with the output universal; otherwise
both inputs accept `["any"]` and the output is universal. -/
theorem C3_update_parameter_types_modes (s : IfElseState) :
    (∀ lt : String, s.locked_type = some lt → lt ≠ "" →
      (_update_parameter_types s).output_if_true =
        { input_types := _get_compatible_types lt, type := lt } ∧
      (_update_parameter_types s).output_if_false =
        { input_types := _get_compatible_types lt, type := lt } ∧
      (_update_parameter_types s).output = { output_type := lt, type := lt }) ∧
    (pyTruthy s.locked_type = false → s.possibility_space ≠ [] →
      (_update_parameter_types s).output_if_true =
        { input_types := s.possibility_space, type := "any" } ∧
      (_update_parameter_types s).output_if_false =
        { input_types := s.possibility_space, type := "any" } ∧
      (_update_parameter_types s).output =
        { output_type := ALL_value, type := ALL_value }) ∧
    (pyTruthy s.locked_type = false → s.possibility_space = [] →
      defaultPorts (_update_parameter_types s)) :=
  ⟨fun lt h hne => update_locked_mode s lt h hne,
   fun h hp => update_possibility_mode s h hp,
   fun h hp => update_default_mode s h hp⟩

theorem C3_witness :
    ((run initState [Event.incomingAdded stringSource inputA]).locked_type =
        some "string" ∧ "string" ≠ "") ∧
    (_update_parameter_types
      (run initState [Event.incomingAdded stringSource inputA])).output =
      { output_type := "string", type := "string" } :=
  ⟨⟨by decide, by decide⟩,
   ((C3_update_parameter_types_modes
      (run initState [Event.incomingAdded stringSource inputA])).1
      "string" (by decide) (by decide)).2.2⟩

/-- C4 (confirmed): `_can_accept_input_type` accepts a proposed type T
iff T is in the compatibility group of the (truthy) locked type; else,
with a non-empty possibility space, iff T is in that space; else
unconditionally. -/
theorem C4_can_accept_input_type (s : IfElseState) (T : String) :
    (∀ lt : String, s.locked_type = some lt → lt ≠ "" →
      (_can_accept_input_type s T = true ↔ T ∈ _get_compatible_types lt)) ∧
    (pyTruthy s.locked_type = false → s.possibility_space ≠ [] →
      (_can_accept_input_type s T = true ↔ T ∈ s.possibility_space)) ∧
    (pyTruthy s.locked_type = false → s.possibility_space = [] →
      _can_accept_input_type s T = true) := by
  refine ⟨?_, ?_, ?_⟩
  · intro lt h hne
    have hE : lt.isEmpty = false := by
      cases hE2 : lt.isEmpty
      · rfl
      · exact absurd ((String.isEmpty_iff lt).mp hE2) hne
    simp [_can_accept_input_type, h, pyTruthy, hE]
  · intro h hp
    have hp2 : s.possibility_space.isEmpty = false := by
      simpa [List.isEmpty_iff] using hp
    simp [_can_accept_input_type, h, hp2]
  · intro h hp
    simp [_can_accept_input_type, h, hp]

theorem C4_witness :
    ((run initState [Event.incomingAdded stringSource inputA]).locked_type =
        some "string" ∧ "string" ≠ "") ∧
    (_can_accept_input_type
        (run initState [Event.incomingAdded stringSource inputA]) "int" = true ↔
      "int" ∈ _get_compatible_types "string") :=
  ⟨⟨by decide, by decide⟩,
   (C4_can_accept_input_type
      (run initState [Event.incomingAdded stringSource inputA]) "int").1
     "string" (by decide) (by decide)⟩

/-- C5 (confirmed): in any reachable state with a connected input,
removing an incoming connection from a data input erases that port from
the connected-input set; if the set becomes empty the locked type clears
and the ports recompute to POSSIBILITY mode when the output is still
connected (inputs accept the stored possibility space, output universal)
and to DEFAULT mode otherwise; if inputs remain, the locked type is
unchanged. -/
theorem C5_incoming_removed (tr : List Event) (tgt : PeerParam)
    (hname : tgt.name ∈ ["output_if_true", "output_if_false"])
    (_hconn : (run initState tr).connected_inputs ≠ ∅) :
    (after_incoming_connection_removed (run initState tr) tgt).connected_inputs =
      (run initState tr).connected_inputs.erase tgt.name ∧
    ((run initState tr).connected_inputs.erase tgt.name = ∅ →
      (after_incoming_connection_removed (run initState tr) tgt).locked_type = none ∧
      ((run initState tr).output_connected = true →
        (after_incoming_connection_removed (run initState tr) tgt).output_if_true =
          { input_types := (run initState tr).possibility_space, type := "any" } ∧
        (after_incoming_connection_removed (run initState tr) tgt).output_if_false =
          { input_types := (run initState tr).possibility_space, type := "any" } ∧
        (after_incoming_connection_removed (run initState tr) tgt).output =
          { output_type := ALL_value, type := ALL_value }) ∧
      ((run initState tr).output_connected = false →
        defaultPorts (after_incoming_connection_removed (run initState tr) tgt))) ∧
    ((run initState tr).connected_inputs.erase tgt.name ≠ ∅ →
      (after_incoming_connection_removed (run initState tr) tgt).locked_type =
        (run initState tr).locked_type) := by
  have hinv := inv_run tr initState inv_init
  obtain ⟨hc, hp, ho, hle, hlne⟩ :=
    after_incoming_removed_fields (run initState tr) tgt hname
  refine ⟨hc, ?_, hlne⟩
  intro hemp
  refine ⟨hle hemp, ?_, ?_⟩
  · intro hout
    have hpne : (run initState tr).possibility_space ≠ [] := hinv.2.1.mp hout
    rw [after_incoming_removed_unlock _ tgt hname hemp]
    exact update_possibility_mode _ rfl hpne
  · intro hout
    have hpe : (run initState tr).possibility_space = [] := by
      by_contra hcon
      rw [hinv.2.1.mpr hcon] at hout
      exact absurd hout (by simp)
    rw [after_incoming_removed_unlock _ tgt hname hemp]
    exact update_default_mode _ rfl hpe

theorem C5_witness :
    (inputA.name ∈ ["output_if_true", "output_if_false"] ∧
     (run initState [Event.outgoingAdded "output" consumerString,
        Event.incomingAdded stringSource inputA]).connected_inputs ≠ ∅) ∧
    (after_incoming_connection_removed
        (run initState [Event.outgoingAdded "output" consumerString,
           Event.incomingAdded stringSource inputA]) inputA).connected_inputs =
      (run initState [Event.outgoingAdded "output" consumerString,
         Event.incomingAdded stringSource inputA]).connected_inputs.erase inputA.name :=
  ⟨⟨by decide, by decide⟩,
   (C5_incoming_removed [Event.outgoingAdded "output" consumerString,
      Event.incomingAdded stringSource inputA] inputA (by decide) (by decide)).1⟩

/-- C6 (confirmed): from any state with a (truthy) locked type, an
outgoing connection from `output` to any consumer leaves the locked type,
the advertised types of all three parameters and the connected-input set
unchanged; only the stored possibility space and the output-connected
flag change. -/
theorem C6_outgoing_preserves_lock (s : IfElseState) (tgt : PeerParam)
    (hlock : pyTruthy s.locked_type = true) :
    (after_outgoing_connection s "output" tgt).locked_type = s.locked_type ∧
    (after_outgoing_connection s "output" tgt).output_if_true = s.output_if_true ∧
    (after_outgoing_connection s "output" tgt).output_if_false = s.output_if_false ∧
    (after_outgoing_connection s "output" tgt).output = s.output ∧
    (after_outgoing_connection s "output" tgt).connected_inputs = s.connected_inputs ∧
    (after_outgoing_connection s "output" tgt).possibility_space =
      (if !tgt.input_types.isEmpty then tgt.input_types else [tgt.type]) ∧
    (after_outgoing_connection s "output" tgt).output_connected = true := by
  simp [after_outgoing_connection, _set_possibility_space, hlock]

theorem C6_witness :
    pyTruthy (run initState
        [Event.incomingAdded stringSource inputA]).locked_type = true ∧
    (after_outgoing_connection
        (run initState [Event.incomingAdded stringSource inputA])
        "output" consumerStringInt).locked_type =
      (run initState [Event.incomingAdded stringSource inputA]).locked_type :=
  ⟨by decide,
   (C6_outgoing_preserves_lock
      (run initState [Event.incomingAdded stringSource inputA])
      consumerStringInt (by decide)).1⟩

/-- C7 (confirmed): from any reachable state, running any sequence of
removal callbacks that removes every connected input and (when connected)
the output connection leaves the node advertising exactly the
DEFAULT-mode port types of a fresh node. -/
theorem C7_full_disconnect_default (tr seq : List Event)
    (hrem : ∀ e ∈ seq, isRemovalEvent e = true)
    (hin : ∀ t ∈ (run initState tr).connected_inputs, t ∈ removedInputNames seq)
    (hout : (run initState tr).output_connected = true →
      "output" ∈ removedOutputNames seq) :
    defaultPorts (run (run initState tr) seq) := by
  have hinv0 := inv_run tr initState inv_init
  have hfi : Inv (run (run initState tr) seq) := inv_run seq _ hinv0
  have hce : (run (run initState tr) seq).connected_inputs = ∅ := by
    rw [Finset.eq_empty_iff_forall_not_mem]
    intro t ht
    have hts : t ∈ (run initState tr).connected_inputs :=
      removals_connected_subset seq _ hrem ht
    have hvalid := hinv0.2.2.1 t hts
    exact removals_drop_input seq _ t hrem hvalid (hin t hts) ht
  have hoe : (run (run initState tr) seq).output_connected = false := by
    cases hoc : (run initState tr).output_connected with
    | false => exact removals_keep_out_false seq _ hrem hoc
    | true => exact removals_drop_out seq _ hrem (hout hoc)
  exact hfi.2.2.2 hce hoe

theorem C7_witness :
    ((∀ e ∈ [Event.outgoingRemoved "output", Event.incomingRemoved inputA],
        isRemovalEvent e = true) ∧
     (∀ t ∈ (run initState [Event.outgoingAdded "output" consumerString,
          Event.incomingAdded stringSource inputA]).connected_inputs,
        t ∈ removedInputNames
          [Event.outgoingRemoved "output", Event.incomingRemoved inputA]) ∧
     ((run initState [Event.outgoingAdded "output" consumerString,
          Event.incomingAdded stringSource inputA]).output_connected = true →
        "output" ∈ removedOutputNames
          [Event.outgoingRemoved "output", Event.incomingRemoved inputA])) ∧
    defaultPorts (run
      (run initState [Event.outgoingAdded "output" consumerString,
         Event.incomingAdded stringSource inputA])
      [Event.outgoingRemoved "output", Event.incomingRemoved inputA]) :=
  ⟨⟨by decide, by decide, by decide⟩,
   C7_full_disconnect_default
     [Event.outgoingAdded "output" consumerString,
      Event.incomingAdded stringSource inputA]
     [Event.outgoingRemoved "output", Event.incomingRemoved inputA]
     (by decide) (by decide) (by decide)⟩

/-- C8 counterexample: after connecting the output to a consumer
accepting `{"string"}`, a `"string"` producer into `output_if_true`, and
then disconnecting `output_if_true`, both inputs accept `["string"]` —
the possibility space restored from the output connection — and not
`["string", "int"]` as the claim states. -/
theorem C8_counterexample :
    (run initState [Event.outgoingAdded "output" consumerString,
       Event.incomingAdded stringSource inputA,
       Event.incomingRemoved inputA]).output_if_true.input_types = ["string"] ∧
    (run initState [Event.outgoingAdded "output" consumerString,
       Event.incomingAdded stringSource inputA,
       Event.incomingRemoved inputA]).output_if_false.input_types = ["string"] ∧
    ¬ (run initState [Event.outgoingAdded "output" consumerString,
       Event.incomingAdded stringSource inputA,
       Event.incomingRemoved inputA]).output_if_true.input_types = ["string", "int"] := by
  decide

/-- C8 (amended): starting fresh, connecting the output to a consumer
accepting `{"string"}`, then a `"string"` producer to `output_if_true`,
then disconnecting `output_if_true`, clears the locked type and leaves
the node in POSSIBILITY mode with both inputs accepting `["string"]`
(the possibility space stored from the output connection) and the output
universal. -/
theorem C8_scenario :
    (run initState [Event.outgoingAdded "output" consumerString,
       Event.incomingAdded stringSource inputA,
       Event.incomingRemoved inputA]).locked_type = none ∧
    (run initState [Event.outgoingAdded "output" consumerString,
       Event.incomingAdded stringSource inputA,
       Event.incomingRemoved inputA]).possibility_space = ["string"] ∧
    (run initState [Event.outgoingAdded "output" consumerString,
       Event.incomingAdded stringSource inputA,
       Event.incomingRemoved inputA]).output_connected = true ∧
    (run initState [Event.outgoingAdded "output" consumerString,
       Event.incomingAdded stringSource inputA,
       Event.incomingRemoved inputA]).output_if_true =
      { input_types := ["string"], type := "any" } ∧
    (run initState [Event.outgoingAdded "output" consumerString,
       Event.incomingAdded stringSource inputA,
       Event.incomingRemoved inputA]).output_if_false =
      { input_types := ["string"], type := "any" } ∧
    (run initState [Event.outgoingAdded "output" consumerString,
       Event.incomingAdded stringSource inputA,
       Event.incomingRemoved inputA]).output =
      { output_type := ALL_value, type := ALL_value } := by
  decide

/-! ### Claims about the evaluation step -/

theorem dictGet_dictSet_self (d : List (String × PyValue)) (k : String) (v : PyValue) :
    dictGet (dictSet d k v) k = some v := by
  unfold dictGet dictSet
  induction d with
  | nil => simp
  | cons kv rest ih =>
    by_cases hk : kv.1 = k
    · simpa [hk] using ih
    · simpa [List.filter_cons, hk, List.find?] using ih

/-- C9 (confirmed): a condition value of unrecognized type makes `process`
fail with a `TypeError` leaving the whole state — in particular the
negotiation state and the recorded output values — untouched, and a node
whose evaluation never succeeded yields no control output and stops the
flow. -/
theorem C9_unevaluable_condition (s : ExecState) (t : String)
    (hval : s.evaluate_value = PyValue.other t)
    (hnoeval : dictGet s.parameter_output_values "evaluate" = none) :
    (process s).1 = s ∧
    (process s).2 = some (PyError.typeError ("Unsupported type for evaluate: " ++ t)) ∧
    (process s).1.neg = s.neg ∧
    (process s).1.parameter_output_values = s.parameter_output_values ∧
    (get_next_control_output (process s).1).2 = none ∧
    (get_next_control_output (process s).1).1.stop_flow = true := by
  have hp : process s =
      (s, some (PyError.typeError ("Unsupported type for evaluate: " ++ t))) := by
    simp [process, check_evaluation, hval]
  refine ⟨by rw [hp], by rw [hp], by rw [hp], by rw [hp], ?_, ?_⟩
  · rw [hp]
    simp [get_next_control_output, hnoeval]
  · rw [hp]
    simp [get_next_control_output, hnoeval]

/-- A concrete evaluation-time state whose condition value has an
unsupported type. -/
def execOther : ExecState :=
  { neg := initState
    evaluate_value := PyValue.other "dict"
    output_if_true_value := PyValue.int 1
    output_if_false_value := PyValue.int 2
    parameter_output_values := []
    stop_flow := false }

theorem C9_witness :
    (execOther.evaluate_value = PyValue.other "dict" ∧
     dictGet execOther.parameter_output_values "evaluate" = none) ∧
    (process execOther).1 = execOther :=
  ⟨⟨by decide, by decide⟩,
   (C9_unevaluable_condition execOther "dict" (by decide) (by decide)).1⟩

/-- C10 (confirmed): `check_evaluation` is total on `str`, `int` and
`bool` condition values — a string evaluates to `false` exactly when its
lowercased, stripped form is one of the 18 fixed false words and to
`true` otherwise, a `bool` passes through unchanged, a non-`bool` `int`
is `true` exactly when nonzero — and `process` records, under
`"output"`, the `output_if_true` value when the result is `true` and the
`output_if_false` value otherwise. -/
theorem C10_check_evaluation_total :
    (∀ s : String, check_evaluation (PyValue.str s) = Except.ok false ↔
      pyStrip (pyLower s) ∈ ["false", "falsey", "f", "no", "n", "negative", "off",
        "zero", "0.0", "0", "", "nope", "nah", "none", "null", "nyet", "nein",
        "disabled"]) ∧
    (∀ s : String, check_evaluation (PyValue.str s) = Except.ok true ↔
      pyStrip (pyLower s) ∉ ["false", "falsey", "f", "no", "n", "negative", "off",
        "zero", "0.0", "0", "", "nope", "nah", "none", "null", "nyet", "nein",
        "disabled"]) ∧
    (∀ b : Bool, check_evaluation (PyValue.bool b) = Except.ok b) ∧
    (∀ n : Int, check_evaluation (PyValue.int n) = Except.ok true ↔ n ≠ 0) ∧
    (∀ es : ExecState, ∀ b : Bool,
      check_evaluation es.evaluate_value = Except.ok b →
      dictGet (process es).1.parameter_output_values "output" =
        some (if b then es.output_if_true_value else es.output_if_false_value)) := by
  refine ⟨?_, ?_, ?_, ?_, ?_⟩
  · intro s
    simp only [check_evaluation, Except.ok.injEq, decide_eq_false_iff_not, not_not,
      false_values]
  · intro s
    simp only [check_evaluation, Except.ok.injEq, decide_eq_true_eq, false_values]
  · intro b
    rfl
  · intro n
    simp [check_evaluation]
  · intro es b h
    simp only [process, h]
    exact dictGet_dictSet_self _ "output" _

/-- A concrete evaluation-time state with a falsy string condition. -/
def execStr : ExecState :=
  { neg := initState
    evaluate_value := PyValue.str " FALSE "
    output_if_true_value := PyValue.int 1
    output_if_false_value := PyValue.int 2
    parameter_output_values := []
    stop_flow := false }

theorem C10_witness :
    check_evaluation execStr.evaluate_value = Except.ok false ∧
    dictGet (process execStr).1.parameter_output_values "output" =
      some (PyValue.int 2) :=
  ⟨by decide,
   by simpa using C10_check_evaluation_total.2.2.2.2 execStr false (by decide)⟩

end IfElseNode
